import Mathlib

/-!
Verification of the retry/credential-rotation wrapper and session registry
of the Session-manager repository (src/main.py), via a shallow embedding.

The embedded pieces are:
* `SecureConfig.get_available_api` — first-fit credential rotation with a
  usage ceiling of 100 and a 3600-second cooldown window;
* `SecureConfig._migrate_database` — additive schema migration of the
  sessions table;
* `AdvancedTelegramClient.connect` — retry loop with exponential backoff,
  returning false immediately on a not-authorized response;
* `AdvancedTelegramClient.disconnect` — best-effort teardown that swallows
  exceptions;
* `AdvancedTelegramClient.safe_execute` — retry loop with flood-wait
  handling and exponential backoff for other failures;
* session persistence: `disconnect` writes the session string to the session
  file, `connect` reads it back and strips surrounding whitespace.

Remote behaviour is modelled as an oracle mapping the attempt index to the
outcome of the remote call made on that attempt; sleeps and remote calls are
recorded in an explicit event trace.
-/

namespace SessionManager

/-- Outcome of one remote call inside `safe_execute`: success with a value,
a `FloodWaitError` carrying the required wait in seconds, or any other
exception. -/
inductive CallOutcome
  | success (v : Nat)
  | floodWait (s : Nat)
  | err
deriving DecidableEq, Repr

/-- Result of `safe_execute` as seen by its caller: a returned value, the
`None` fall-through, or a re-raised exception. -/
inductive ExecResult
  | ok (v : Nat)
  | noResult
  | raised
deriving DecidableEq, Repr

/-- Observable events emitted while `safe_execute` runs: a sleep of a given
number of seconds, one remote call, or semaphore operations (the source
never performs the latter two; they are in the alphabet so that the absence
of permit handling is expressible). -/
inductive Event
  | sleep (n : Nat)
  | remoteCall
  | acquirePermit
  | releasePermit
deriving DecidableEq, Repr

/-- One iteration of the retry loop of `safe_execute` (src/main.py lines
250-264), given the outcome `o` of the remote call made on this attempt and
the continuation `rec` running the remaining iterations from a given attempt
index.  On `FloodWaitError e` it sleeps `min e.seconds 3600` and goes to the
next iteration; on any other exception it re-raises when the attempt is the
last one (`attempt == MAX_RETRIES - 1`, i.e. `rem = 0` iterations would
remain) and otherwise sleeps `RETRY_DELAY * 2 ^ attempt`. -/
def execStep (delay attempt rem : Nat) (o : CallOutcome)
    (rec : Nat → ExecResult × List Event) : ExecResult × List Event :=
  match o with
  | .success v => (.ok v, [.remoteCall])
  | .floodWait s =>
    let rest := rec (attempt + 1)
    (rest.1, .remoteCall :: .sleep (min s 3600) :: rest.2)
  | .err =>
    match rem with
    | 0 => (.raised, [.remoteCall])
    | _ + 1 =>
      let rest := rec (attempt + 1)
      (rest.1, .remoteCall :: .sleep (delay * 2 ^ attempt) :: rest.2)

/-- The retry loop of `safe_execute` (src/main.py lines 250-265), indexed by
the number of remaining loop iterations and the current attempt index, so
that `runAttempts delay b maxRetries 0` is the whole loop; falling off the
loop returns `None`. -/
def runAttempts (delay : Nat) (b : Nat → CallOutcome) :
    Nat → Nat → ExecResult × List Event
  | 0, _ => (.noResult, [])
  | rem + 1, attempt =>
    execStep delay attempt rem (b attempt) (runAttempts delay b rem)

/-- The entry of `safe_execute` (src/main.py lines 246-265): when the client
is not connected it first calls `connect`, returning `None` when that fails;
otherwise it runs the retry loop.  `connected` is the `_connected` flag and
`connectOk` the result the internal `connect` call would produce. -/
def safe_execute (connected connectOk : Bool) (maxRetries delay : Nat)
    (b : Nat → CallOutcome) : ExecResult × List Event :=
  if !connected && !connectOk then (.noResult, [])
  else runAttempts delay b maxRetries 0

/-- Total seconds slept over an event trace. -/
def totalSleep (tr : List Event) : Nat :=
  tr.foldl (fun a e => match e with | .sleep n => a + n | _ => a) 0

/-- Whether a concurrency permit is held just before position `i` of an
event trace: more permits acquired than released among the first `i`
events. -/
def permitHeldAt (tr : List Event) (i : Nat) : Bool :=
  decide ((tr.take i).count .releasePermit < (tr.take i).count .acquirePermit)

/-- Outcome of one connection attempt inside `connect`: authorized,
explicitly not authorized, or an exception. -/
inductive ConnOutcome
  | authorized
  | notAuthorized
  | failure
deriving DecidableEq, Repr

/-- One iteration of the retry loop of `connect` (src/main.py lines
205-226), given the outcome `o` of this connection attempt and the
continuation `rec` running the remaining iterations.  A not-authorized
response returns false at once, with no further attempt and no sleep; an
authorized response returns true; an exception sleeps
`RETRY_DELAY * 2 ^ attempt` unless the attempt is the last.  The result
carries the returned boolean, the list of backoff sleeps, and the number of
connection attempts performed. -/
def connectStep (delay attempt rem : Nat) (o : ConnOutcome)
    (rec : Nat → Bool × List Nat × Nat) : Bool × List Nat × Nat :=
  match o with
  | .authorized => (true, [], 1)
  | .notAuthorized => (false, [], 1)
  | .failure =>
    match rem with
    | 0 => (false, [], 1)
    | _ + 1 =>
      let rest := rec (attempt + 1)
      (rest.1, delay * 2 ^ attempt :: rest.2.1, rest.2.2 + 1)

/-- The retry loop of `connect` (src/main.py lines 205-228), indexed like
`runAttempts`; falling off the loop returns false. -/
def connectLoop (delay : Nat) (b : Nat → ConnOutcome) :
    Nat → Nat → Bool × List Nat × Nat
  | 0, _ => (false, [], 0)
  | rem + 1, attempt =>
    connectStep delay attempt rem (b attempt) (connectLoop delay b rem)

/-- The entry of `connect` (src/main.py lines 179-228): when already
connected it returns true without any attempt; otherwise it runs the
attempt loop. -/
def connect (connected : Bool) (maxRetries delay : Nat)
    (b : Nat → ConnOutcome) : Bool × List Nat × Nat :=
  if connected then (true, [], 0) else connectLoop delay b maxRetries 0

/-- Client state tracked by `disconnect`: whether `self.client` holds a
client object and the `_connected` flag. -/
structure ClientState where
  client : Bool
  connected : Bool
deriving DecidableEq, Repr

/-- Environment of one `disconnect` call: the teardown body either succeeds,
or raises while persisting the session file, or raises while closing the
underlying client. -/
inductive DiscEnv
  | ok
  | persistFails
  | closeFails
deriving DecidableEq, Repr

/-- Whether the teardown body of `disconnect` runs to completion. -/
def DiscEnv.isOk : DiscEnv → Bool
  | .ok => true
  | .persistFails => false
  | .closeFails => false

/-- The body of `disconnect` (src/main.py lines 230-244).  When a client is
held and the connected flag is set it persists the session string, closes
the client and only then clears `_connected`; any exception in that body is
swallowed.  In every case `self.client` is set to `None` afterwards. -/
def disconnect (s : ClientState) (env : DiscEnv) : ClientState :=
  let s1 :=
    if s.client && s.connected then
      match env with
      | .ok => { s with connected := false }
      | .persistFails => s
      | .closeFails => s
    else s
  { s1 with client := false }

/-- Session persistence as performed by `disconnect` (src/main.py lines
233-235): the session string is written to the session file verbatim. -/
def persistSecret (secret : String) : String := secret

/-- The `str.strip()` applied by `connect` to the loaded session string:
whitespace characters are removed from both ends of the character
sequence. -/
def stripSecret (s : String) : String :=
  ⟨((s.data.dropWhile Char.isWhitespace).reverse.dropWhile
      Char.isWhitespace).reverse⟩

/-- Session loading as performed by `connect` (src/main.py lines 184-188):
the file contents are read back and surrounding whitespace is stripped. -/
def loadSecret (fileContents : String) : String := stripSecret fileContents

/-- One entry of `API_POOL`: the credential identifier together with its
mutable limits, a usage count and an optional last-used timestamp (seconds;
`none` models Python `None`). -/
structure ApiCred where
  apiId : Nat
  count : Nat
  lastUsed : Option Nat
deriving DecidableEq, Repr

/-- The cooldown test of `get_available_api`:
`last_used and (now - last_used).total_seconds() > 3600`.  A credential with
no last-used timestamp never passes, mirroring Python truthiness of
`None`. -/
def cooldownElapsed (now : Nat) (c : ApiCred) : Bool :=
  match c.lastUsed with
  | some t => decide (3600 < now - t)
  | none => false

/-- The selection test of `get_available_api`: usage count below the fixed
ceiling of 100, or the cooldown window has elapsed. -/
def qualifies (now : Nat) (c : ApiCred) : Bool :=
  decide (c.count < 100) || cooldownElapsed now c

/-- The mutation `get_available_api` applies to the selected credential:
when the cooldown has elapsed the count is first reset to zero; then the
last-used timestamp is set to now and the count incremented. -/
def acquireCred (now : Nat) (c : ApiCred) : ApiCred :=
  let c1 := if cooldownElapsed now c then { c with count := 0 } else c
  { c1 with lastUsed := some now, count := c1.count + 1 }

/-- The linear scan of `get_available_api` (src/main.py lines 141-150):
the first credential in declaration order passing `qualifies` is mutated by
`acquireCred` and returned together with the updated pool; when none
qualifies the function raises (modelled as `none`). -/
def get_available_api (now : Nat) :
    List ApiCred → Option (ApiCred × List ApiCred)
  | [] => none
  | c :: rest =>
    if qualifies now c then
      let sel := acquireCred now c
      some (sel, sel :: rest)
    else
      match get_available_api now rest with
      | some (sel, rest1) => some (sel, c :: rest1)
      | none => none

/-- A column of the sessions table: its name and the default value existing
rows take when the column is added by `ALTER TABLE ... ADD COLUMN`. -/
structure Column where
  name : String
  dflt : Option String
deriving DecidableEq, Repr

/-- The sessions table: its column list and its rows, each row a list of
optional values aligned with the column list. -/
structure Table where
  cols : List Column
  rows : List (List (Option String))
deriving DecidableEq, Repr

/-- Effect of `ALTER TABLE sessions ADD COLUMN`: the column is appended and
every existing row gains the column default in the new position. -/
def addColumn (t : Table) (c : Column) : Table :=
  { cols := t.cols ++ [c], rows := t.rows.map (fun r => r ++ [c.dflt]) }

/-- Whether the table already has a column of the given name (the
`PRAGMA table_info` membership test of `_migrate_database`). -/
def hasColumn (t : Table) (name : String) : Bool :=
  t.cols.any (fun c => c.name == name)

/-- The migration list of `_migrate_database` (src/main.py lines 109-114):
metadata, session_hash, status (default active) and notes. -/
def migrationColumns : List Column :=
  [⟨"metadata", none⟩, ⟨"session_hash", none⟩,
   ⟨"status", some "active"⟩, ⟨"notes", none⟩]

/-- One step of `_migrate_database`: add the column unless one of that name
is already present. -/
def applyMigration (t : Table) (c : Column) : Table :=
  if hasColumn t c.name then t else addColumn t c

/-- The migration loop of `_migrate_database` (src/main.py lines 99-119) on
an existing table. -/
def migrate_database (t : Table) : Table :=
  migrationColumns.foldl applyMigration t

/-- C4: a call to `connect` that receives an explicit not-authorized
response from the remote service returns false on the first attempt,
performing zero retries and no backoff sleeps. -/
theorem connect_notAuthorized_no_retry (maxRetries delay : Nat)
    (b : Nat → ConnOutcome) (hmr : 0 < maxRetries)
    (hb : b 0 = ConnOutcome.notAuthorized) :
    connect false maxRetries delay b = (false, [], 1) := by
  cases maxRetries with
  | zero => omega
  | succ n => simp [connect, connectLoop, connectStep, hb]

/-- Witness for C4: with five configured attempts and a remote service that
always answers not-authorized, `connect` returns false after exactly one
attempt and no sleeps. -/
theorem connect_notAuthorized_no_retry_witness :
    connect false 5 5 (fun _ => ConnOutcome.notAuthorized) = (false, [], 1) :=
  connect_notAuthorized_no_retry 5 5 (fun _ => ConnOutcome.notAuthorized)
    (by decide) rfl

/-- Counterexample for C5: the round-trip `load(persist(secret))` is not the
identity on every secret string, because `connect` strips surrounding
whitespace from the loaded file contents. -/
theorem secret_roundtrip_counterexample :
    loadSecret (persistSecret "secret ") ≠ "secret " := by decide

/-- Amended C5: for every secret string that stripping leaves unchanged
(no surrounding whitespace), loading the secret back from the file written
by persist yields the original secret; the code has a single plaintext
storage mode (no encryption is implemented in this variant). -/
theorem secret_roundtrip_trimmed (s : String) (h : stripSecret s = s) :
    loadSecret (persistSecret s) = s := h

/-- Witness for amended C5: a concrete whitespace-free secret round-trips
unchanged. -/
theorem secret_roundtrip_trimmed_witness :
    loadSecret (persistSecret "1ApWapzMBu4") = "1ApWapzMBu4" :=
  secret_roundtrip_trimmed "1ApWapzMBu4" (by decide)

/-- C7: calling `disconnect` twice in a row is safe; the second call leaves
the client state exactly as the first call produced it, whatever the
environment of either call. -/
theorem disconnect_idempotent (s : ClientState) (e1 e2 : DiscEnv) :
    disconnect (disconnect s e1) e2 = disconnect s e1 := by
  rcases s with ⟨c, k⟩
  cases c <;> cases k <;> cases e1 <;> cases e2 <;> rfl

/-- Counterexample for C8: when persisting the session raises during
`disconnect`, the client handle is cleared but the connected flag is left
set, so the client has not transitioned to the disconnected state. -/
theorem disconnect_error_counterexample :
    disconnect ⟨true, true⟩ DiscEnv.persistFails =
      { client := false, connected := true } := rfl

/-- Amended C8: `disconnect` swallows errors and always clears the client
handle, but it clears the connected flag only when it held a live connected
client and the teardown body ran to completion; on an error path (or when
no live client is held) the connected flag keeps its previous value. -/
theorem disconnect_clears_client (s : ClientState) (env : DiscEnv) :
    (disconnect s env).client = false ∧
    (disconnect s env).connected =
      (s.connected && !(s.client && s.connected && env.isOk)) := by
  rcases s with ⟨c, k⟩
  cases c <;> cases k <;> cases env <;> exact ⟨rfl, rfl⟩

/-- Counterexample for C1: flood-wait retries are counted against the
generic retry budget.  With `MAX_RETRIES = 5` and a remote service that
answers the first five calls with a flood wait of 5 seconds and would let a
sixth call succeed, `safe_execute` makes exactly five remote calls, sleeps
5 seconds after each, and returns `None` without ever reaching the
success. -/
theorem floodwait_budget_counterexample :
    safe_execute true true 5 5
        (fun i => if i < 5 then CallOutcome.floodWait 5
                  else CallOutcome.success 42) =
      (ExecResult.noResult,
       [Event.remoteCall, Event.sleep 5, Event.remoteCall, Event.sleep 5,
        Event.remoteCall, Event.sleep 5, Event.remoteCall, Event.sleep 5,
        Event.remoteCall, Event.sleep 5]) := by decide

/-- Amended C1: on a rate-limit response carrying a required wait of `s`
seconds the client sleeps `min s 3600` seconds and then retries the same
call, but each such retry consumes one iteration of the same attempt budget
shared with generic retries: the continuation runs with one fewer remaining
iteration. -/
theorem floodwait_sleep_and_retry (delay : Nat) (b : Nat → CallOutcome)
    (rem attempt s : Nat) (h : b attempt = CallOutcome.floodWait s) :
    runAttempts delay b (rem + 1) attempt =
      ((runAttempts delay b rem (attempt + 1)).1,
       Event.remoteCall :: Event.sleep (min s 3600) ::
         (runAttempts delay b rem (attempt + 1)).2) := by
  simp [runAttempts, execStep, h]

/-- Witness for amended C1: a concrete flood wait of 7 seconds sleeps
`min 7 3600` seconds and continues with one remaining iteration fewer. -/
theorem floodwait_sleep_and_retry_witness :
    runAttempts 5 (fun _ => CallOutcome.floodWait 7) 2 0 =
      ((runAttempts 5 (fun _ => CallOutcome.floodWait 7) 1 1).1,
       Event.remoteCall :: Event.sleep (min 7 3600) ::
         (runAttempts 5 (fun _ => CallOutcome.floodWait 7) 1 1).2) :=
  floodwait_sleep_and_retry 5 (fun _ => CallOutcome.floodWait 7) 1 0 7 rfl

lemma runAttempts_allFlood (delay : Nat) (b : Nat → CallOutcome) :
    ∀ rem attempt,
      (∀ i, i < rem → ∃ s, b (attempt + i) = CallOutcome.floodWait s) →
      (runAttempts delay b rem attempt).1 = ExecResult.noResult := by
  intro rem
  induction rem with
  | zero => intro attempt h; rfl
  | succ r ih =>
    intro attempt h
    obtain ⟨s, hs⟩ := h 0 (by omega)
    rw [Nat.add_zero] at hs
    simp only [runAttempts, execStep, hs]
    refine ih (attempt + 1) (fun i hi => ?_)
    obtain ⟨s2, hs2⟩ := h (i + 1) (by omega)
    rw [show attempt + 1 + i = attempt + (i + 1) from by omega]
    exact ⟨s2, hs2⟩

/-- C10: when the client is not connected and its internal connect attempt
returns false, `safe_execute` returns `None` without raising; and when every
one of the configured attempts ends in a rate-limit wait, the attempt loop
is exhausted and the call returns `None` rather than raising or retrying
further. -/
theorem safe_execute_returns_none (maxRetries delay : Nat)
    (b : Nat → CallOutcome) :
    safe_execute false false maxRetries delay b = (ExecResult.noResult, []) ∧
    ((∀ i, i < maxRetries → ∃ s, b i = CallOutcome.floodWait s) →
      (safe_execute true true maxRetries delay b).1 = ExecResult.noResult) := by
  constructor
  · simp [safe_execute]
  · intro h
    simp only [safe_execute, Bool.not_true, Bool.and_self, Bool.false_and,
      if_neg, Bool.false_eq_true, not_false_iff]
    exact runAttempts_allFlood delay b maxRetries 0
      (fun i hi => by simpa using h i hi)

/-- Witness for C10: with two configured attempts and a remote service that
always answers with a flood wait, both clauses hold at a concrete input. -/
theorem safe_execute_returns_none_witness :
    safe_execute false false 2 5 (fun _ => CallOutcome.floodWait 3) =
      (ExecResult.noResult, []) ∧
    (safe_execute true true 2 5 (fun _ => CallOutcome.floodWait 3)).1 =
      ExecResult.noResult := by
  have h := safe_execute_returns_none 2 5 (fun _ => CallOutcome.floodWait 3)
  exact ⟨h.1, h.2 (fun i hi => ⟨3, rfl⟩)⟩

lemma runAttempts_no_permit (delay : Nat) (b : Nat → CallOutcome) :
    ∀ rem attempt,
      Event.acquirePermit ∉ (runAttempts delay b rem attempt).2 := by
  intro rem
  induction rem with
  | zero => intro attempt; simp [runAttempts]
  | succ r ih =>
    intro attempt
    cases hb : b attempt with
    | success v => simp [runAttempts, execStep, hb]
    | floodWait s =>
      simp only [runAttempts, execStep, hb, List.mem_cons]
      push_neg
      exact ⟨by simp, by simp, ih (attempt + 1)⟩
    | err =>
      cases r with
      | zero => simp [runAttempts, execStep, hb]
      | succ r2 =>
        simp only [runAttempts, execStep, hb, List.mem_cons]
        push_neg
        exact ⟨by simp, by simp, ih (attempt + 1)⟩

/-- Counterexample for C9: a remote call made through `safe_execute` does
not run while holding a concurrency permit; on a call that succeeds at once
the whole event trace is a single unguarded remote call, with no permit
held when it starts. -/
theorem execute_no_permit_counterexample :
    (safe_execute true true 5 5 (fun _ => CallOutcome.success 42)).2 =
      [Event.remoteCall] ∧
    permitHeldAt
      (safe_execute true true 5 5 (fun _ => CallOutcome.success 42)).2 0 =
      false := by decide

/-- Amended C9: `safe_execute` never acquires a concurrency permit: the
configured concurrency bound is parsed into the configuration but not
enforced, so no semaphore event ever appears in the trace of any call. -/
theorem safe_execute_no_permit (connected connectOk : Bool)
    (maxRetries delay : Nat) (b : Nat → CallOutcome) :
    Event.acquirePermit ∉
      (safe_execute connected connectOk maxRetries delay b).2 := by
  unfold safe_execute
  split
  · simp
  · exact runAttempts_no_permit delay b maxRetries 0

/-- Witness for amended C9: a concrete successful call acquires no
concurrency permit. -/
theorem safe_execute_no_permit_witness :
    Event.acquirePermit ∉
      (safe_execute true true 5 5 (fun _ => CallOutcome.success 42)).2 :=
  safe_execute_no_permit true true 5 5 (fun _ => CallOutcome.success 42)

lemma runAttempts_raised (delay : Nat) (b : Nat → CallOutcome) :
    ∀ rem attempt, 0 < rem →
      (∀ i, i < rem → b (attempt + i) = CallOutcome.err ∨
        ∃ s, b (attempt + i) = CallOutcome.floodWait s) →
      b (attempt + rem - 1) = CallOutcome.err →
      (runAttempts delay b rem attempt).1 = ExecResult.raised := by
  intro rem
  induction rem with
  | zero => intro attempt h0; omega
  | succ r ih =>
    intro attempt hpos hall hlast
    cases r with
    | zero =>
      have h0 : b attempt = CallOutcome.err := by simpa using hlast
      simp [runAttempts, execStep, h0]
    | succ r2 =>
      have hall2 : ∀ i, i < r2 + 1 → b (attempt + 1 + i) = CallOutcome.err ∨
          ∃ s, b (attempt + 1 + i) = CallOutcome.floodWait s := by
        intro i hi
        have := hall (i + 1) (by omega)
        rwa [show attempt + (i + 1) = attempt + 1 + i from by omega] at this
      have hlast2 : b (attempt + 1 + (r2 + 1) - 1) = CallOutcome.err := by
        have := hlast
        rwa [show attempt + (r2 + 1 + 1) - 1 = attempt + 1 + (r2 + 1) - 1
          from by omega] at this
      have h0 := hall 0 (by omega)
      rw [Nat.add_zero] at h0
      rcases h0 with h0 | ⟨s, h0⟩
      · simp only [runAttempts, execStep, h0]
        exact ih (attempt + 1) (by omega) hall2 hlast2
      · simp only [runAttempts, execStep, h0]
        exact ih (attempt + 1) (by omega) hall2 hlast2

/-- C3: with retry ceiling 5, two consecutive transient failures followed by
success make `safe_execute` return the successful result with total elapsed
sleep `RETRY_DELAY * (2 ^ 0 + 2 ^ 1)`; and in general, when no attempt
succeeds and the final attempt fails with a transient error, the final
failure is re-raised to the caller. -/
theorem safe_execute_transient_backoff (delay v maxRetries : Nat)
    (b : Nat → CallOutcome) (hmr : 0 < maxRetries)
    (hnb : ∀ i, i < maxRetries → b i = CallOutcome.err ∨
      ∃ s, b i = CallOutcome.floodWait s)
    (hlast : b (maxRetries - 1) = CallOutcome.err) :
    ((safe_execute true true 5 delay
        (fun i => if i < 2 then CallOutcome.err else CallOutcome.success v)).1 =
      ExecResult.ok v ∧
     totalSleep (safe_execute true true 5 delay
        (fun i => if i < 2 then CallOutcome.err else CallOutcome.success v)).2 =
      delay * (2 ^ 0 + 2 ^ 1)) ∧
    (safe_execute true true maxRetries delay b).1 = ExecResult.raised := by
  refine ⟨⟨rfl, ?_⟩, ?_⟩
  · simp [safe_execute, runAttempts, execStep, totalSleep]
    ring
  · simp only [safe_execute, Bool.not_true, Bool.false_and, Bool.false_eq_true,
      not_false_iff, if_neg]
    exact runAttempts_raised delay b maxRetries 0 hmr
      (fun i hi => by simpa using hnb i hi) (by simpa using hlast)

/-- Witness for C3: concrete backoff values for the two-failure scenario and
a three-attempt all-transient-failure run that re-raises. -/
theorem safe_execute_transient_backoff_witness :
    ((safe_execute true true 5 5
        (fun i => if i < 2 then CallOutcome.err else CallOutcome.success 42)).1 =
      ExecResult.ok 42 ∧
     totalSleep (safe_execute true true 5 5
        (fun i => if i < 2 then CallOutcome.err else CallOutcome.success 42)).2 =
      5 * (2 ^ 0 + 2 ^ 1)) ∧
    (safe_execute true true 3 5 (fun _ => CallOutcome.err)).1 =
      ExecResult.raised :=
  safe_execute_transient_backoff 5 42 3 (fun _ => CallOutcome.err)
    (by decide) (fun i hi => Or.inl rfl) rfl

lemma acquireCred_lastUsed (now : Nat) (c : ApiCred) :
    (acquireCred now c).lastUsed = some now := by
  unfold acquireCred
  by_cases h : cooldownElapsed now c <;> simp [h]

lemma acquireCred_count (now : Nat) (c : ApiCred) :
    (acquireCred now c).count =
      if cooldownElapsed now c then 1 else c.count + 1 := by
  unfold acquireCred
  by_cases h : cooldownElapsed now c <;> simp [h]

/-- C2: `get_available_api` scans the pool in declaration order and selects
the first credential whose usage count is below the ceiling of 100 or whose
cooldown has elapsed; the selected credential gets its last-used timestamp
set to now, its counter observed equal to 1 in the cooldown case and to the
incremented old value (which was below the ceiling) otherwise; the pool is
updated only at the selected position; and the call fails exactly when no
credential qualifies. -/
theorem get_available_api_spec (now : Nat) (pool : List ApiCred) :
    (get_available_api now pool = none ↔
      ∀ c ∈ pool, qualifies now c = false) ∧
    (∀ sel pool1, get_available_api now pool = some (sel, pool1) →
      ∃ i, ∃ hi : i < pool.length,
        qualifies now (pool.get ⟨i, hi⟩) = true ∧
        (∀ j, ∀ hj : j < pool.length, j < i →
          qualifies now (pool.get ⟨j, hj⟩) = false) ∧
        sel = acquireCred now (pool.get ⟨i, hi⟩) ∧
        sel.lastUsed = some now ∧
        (if cooldownElapsed now (pool.get ⟨i, hi⟩) then sel.count = 1
         else sel.count = (pool.get ⟨i, hi⟩).count + 1 ∧
           (pool.get ⟨i, hi⟩).count < 100) ∧
        pool1 = pool.set i sel) := by
  induction pool with
  | nil =>
    constructor
    · simp [get_available_api]
    · intro sel pool1 h
      simp [get_available_api] at h
  | cons c rest ih =>
    by_cases hq : qualifies now c
    · constructor
      · constructor
        · intro h
          rw [show get_available_api now (c :: rest) =
            some (acquireCred now c, acquireCred now c :: rest) from by
              simp [get_available_api, hq]] at h
          exact absurd h (by simp)
        · intro hall
          exact absurd hq (by simp [hall c (List.mem_cons_self c rest)])
      · intro sel pool1 h
        rw [show get_available_api now (c :: rest) =
          some (acquireCred now c, acquireCred now c :: rest) from by
            simp [get_available_api, hq]] at h
        simp only [Option.some.injEq, Prod.mk.injEq] at h
        obtain ⟨hsel, hpool⟩ := h
        refine ⟨0, by simp, by simpa using hq,
          fun j hj hjlt => absurd hjlt (by omega), ?_, ?_, ?_, ?_⟩
        · simpa using hsel.symm
        · rw [← hsel]; exact acquireCred_lastUsed now c
        · rw [← hsel]
          simp only [List.get]
          rw [acquireCred_count now c]
          by_cases hcool : cooldownElapsed now c
          · simp [hcool]
          · have hlt : c.count < 100 := by
              have := hq
              unfold qualifies at this
              simp [hcool] at this
              exact this
            simp [hcool, hlt]
        · simp [← hpool, ← hsel]
    · have hrw : get_available_api now (c :: rest) =
        match get_available_api now rest with
        | some (sel, rest1) => some (sel, c :: rest1)
        | none => none := by
        simp [get_available_api, hq]
      constructor
      · constructor
        · intro h
          rw [hrw] at h
          intro x hx
          rcases List.mem_cons.mp hx with hx | hx
          · rw [hx]; simpa using hq
          · rcases hmatch : get_available_api now rest with _ | p
            · exact (ih.1.mp hmatch) x hx
            · rw [hmatch] at h
              rcases p with ⟨s2, r2⟩
              simp at h
        · intro hall
          rw [hrw]
          have : get_available_api now rest = none :=
            ih.1.mpr (fun x hx => hall x (List.mem_cons_of_mem c hx))
          rw [this]
      · intro sel pool1 h
        rw [hrw] at h
        rcases hmatch : get_available_api now rest with _ | p
        · rw [hmatch] at h; simp at h
        · rcases p with ⟨s2, r2⟩
          rw [hmatch] at h
          simp only [Option.some.injEq, Prod.mk.injEq] at h
          obtain ⟨hsel, hpool⟩ := h
          obtain ⟨i, hi, hqi, hprev, hacq, hlu, hcount, hset⟩ :=
            ih.2 s2 r2 hmatch
          refine ⟨i + 1, by simpa using Nat.succ_lt_succ hi, ?_, ?_, ?_, ?_, ?_, ?_⟩
          · simpa using hqi
          · intro j hj hjlt
            cases j with
            | zero => simpa using hq
            | succ j2 =>
              have hj2 : j2 < rest.length := by simpa using Nat.lt_of_succ_lt_succ hj
              have := hprev j2 hj2 (by omega)
              simpa using this
          · rw [← hsel]; simpa using hacq
          · rw [← hsel]; exact hlu
          · rw [← hsel]
            simpa using hcount
          · rw [← hpool, hset, hsel]
            simp

/-- Witness for C2: on a concrete one-credential pool with usage count 3 and
no last-used timestamp, the scan selects index 0, increments the counter to
4 and stamps the current time. -/
theorem get_available_api_spec_witness :
    ∃ i, ∃ hi : i < ([⟨7, 3, none⟩] : List ApiCred).length,
      qualifies 5000 (([⟨7, 3, none⟩] : List ApiCred).get ⟨i, hi⟩) = true ∧
      (∀ j, ∀ hj : j < ([⟨7, 3, none⟩] : List ApiCred).length, j < i →
        qualifies 5000 (([⟨7, 3, none⟩] : List ApiCred).get ⟨j, hj⟩) = false) ∧
      (⟨7, 4, some 5000⟩ : ApiCred) =
        acquireCred 5000 (([⟨7, 3, none⟩] : List ApiCred).get ⟨i, hi⟩) ∧
      (⟨7, 4, some 5000⟩ : ApiCred).lastUsed = some 5000 ∧
      (if cooldownElapsed 5000 (([⟨7, 3, none⟩] : List ApiCred).get ⟨i, hi⟩)
       then (⟨7, 4, some 5000⟩ : ApiCred).count = 1
       else (⟨7, 4, some 5000⟩ : ApiCred).count =
           (([⟨7, 3, none⟩] : List ApiCred).get ⟨i, hi⟩).count + 1 ∧
         (([⟨7, 3, none⟩] : List ApiCred).get ⟨i, hi⟩).count < 100) ∧
      ([⟨7, 4, some 5000⟩] : List ApiCred) =
        ([⟨7, 3, none⟩] : List ApiCred).set i ⟨7, 4, some 5000⟩ :=
  (get_available_api_spec 5000 [⟨7, 3, none⟩]).2 ⟨7, 4, some 5000⟩
    [⟨7, 4, some 5000⟩] (by decide)

lemma foldl_applyMigration_extends (ms : List Column) :
    ∀ t : Table, ∃ added : List Column,
      (ms.foldl applyMigration t).cols = t.cols ++ added ∧
      (ms.foldl applyMigration t).rows =
        t.rows.map (fun r => r ++ added.map Column.dflt) := by
  induction ms with
  | nil =>
    intro t
    exact ⟨[], by simp, by simp⟩
  | cons m ms ih =>
    intro t
    obtain ⟨a1, h1, h2⟩ := ih (applyMigration t m)
    by_cases hm : hasColumn t m.name
    · refine ⟨a1, ?_, ?_⟩
      · rw [List.foldl_cons]
        rw [show applyMigration t m = t from by simp [applyMigration, hm]] at h1 ⊢
        exact h1
      · rw [List.foldl_cons]
        rw [show applyMigration t m = t from by simp [applyMigration, hm]] at h2 ⊢
        exact h2
    · refine ⟨m :: a1, ?_, ?_⟩
      · rw [List.foldl_cons]
        rw [show applyMigration t m = addColumn t m from by
          simp [applyMigration, hm]] at h1 ⊢
        rw [h1]
        simp [addColumn]
      · rw [List.foldl_cons]
        rw [show applyMigration t m = addColumn t m from by
          simp [applyMigration, hm]] at h2 ⊢
        rw [h2]
        simp only [addColumn, List.map_map, List.map_cons]
        refine List.map_congr_left (fun r hr => ?_)
        simp [Function.comp]

lemma applyMigration_hasColumn_self (t : Table) (m : Column) :
    hasColumn (applyMigration t m) m.name = true := by
  by_cases hm : hasColumn t m.name
  · simp [applyMigration, hm]
  · rw [show applyMigration t m = addColumn t m from by
      simp [applyMigration, hm]]
    simp [hasColumn, addColumn]

lemma applyMigration_hasColumn_mono (t : Table) (m : Column) (n : String)
    (h : hasColumn t n = true) : hasColumn (applyMigration t m) n = true := by
  by_cases hm : hasColumn t m.name
  · simpa [applyMigration, hm]
  · unfold hasColumn at h ⊢
    simp only [applyMigration, hm, if_neg, addColumn, List.any_append,
      Bool.or_eq_true, Bool.false_eq_true, not_false_iff]
    exact Or.inl h

/-- C6: startup migration of an existing sessions table adds the missing
columns among metadata, session_hash, status and notes, and is additive
only: the original columns survive as a prefix in order (nothing is dropped
or renamed) and every pre-existing row keeps all its pre-existing values,
gaining only the added columns' default values. -/
theorem migrate_database_additive (t : Table) :
    (∃ added : List Column,
      (migrate_database t).cols = t.cols ++ added ∧
      (migrate_database t).rows =
        t.rows.map (fun r => r ++ added.map Column.dflt)) ∧
    hasColumn (migrate_database t) "metadata" = true ∧
    hasColumn (migrate_database t) "session_hash" = true ∧
    hasColumn (migrate_database t) "status" = true ∧
    hasColumn (migrate_database t) "notes" = true := by
  have hfold : migrate_database t =
      applyMigration (applyMigration (applyMigration
        (applyMigration t ⟨"metadata", none⟩) ⟨"session_hash", none⟩)
        ⟨"status", some "active"⟩) ⟨"notes", none⟩ := rfl
  refine ⟨foldl_applyMigration_extends migrationColumns t, ?_, ?_, ?_, ?_⟩
  · rw [hfold]
    exact applyMigration_hasColumn_mono _ _ _
      (applyMigration_hasColumn_mono _ _ _
        (applyMigration_hasColumn_mono _ _ _
          (applyMigration_hasColumn_self t ⟨"metadata", none⟩)))
  · rw [hfold]
    exact applyMigration_hasColumn_mono _ _ _
      (applyMigration_hasColumn_mono _ _ _
        (applyMigration_hasColumn_self _ ⟨"session_hash", none⟩))
  · rw [hfold]
    exact applyMigration_hasColumn_mono _ _ _
      (applyMigration_hasColumn_self _ ⟨"status", some "active"⟩)
  · rw [hfold]
    exact applyMigration_hasColumn_self _ ⟨"notes", none⟩

end SessionManager
